import Mathlib

/-!
Verification of the TEMP0RAL_CAPTCHA server (`src/main.go`).

The Go program is shallowly embedded below:
* the in-memory captcha store (`map[string]captchaEntry` guarded by a mutex,
  accessed by straight-line handler code) becomes a function
  `String → Option captchaEntry`, and each HTTP handler becomes a pure state
  transformer returning the new store plus the rendered response;
* `crypto/rand.Int(rand.Reader, big.NewInt(n))`, which returns a uniform
  integer in `[0, n)`, is modelled by reducing an oracle-supplied raw draw
  modulo `n`; randomized functions take the oracle (a stream `Nat → Nat` or
  individual raw draws) as an explicit argument;
* `image.RGBA` becomes a structure carrying the canvas dimensions and a pixel
  map; `(*image.RGBA).Set`, which silently ignores out-of-bounds writes, is
  modelled with the same bounds guard;
* the font library (`golang.org/x/image/font` / `opentype`) is an external
  collaborator of the repository, so its behaviour is a parameter: a `FontLib`
  records whether `opentype.Parse(goregular.TTF)` and `opentype.NewFace`
  succeed and what `font.MeasureString` / `font.Drawer.DrawString` compute.
  `generateImage` consults those fields exactly where `src/main.go` calls the
  library (inside every render call);
* `int` arithmetic is modelled by `Int` (the values involved are tiny, far
  from 64-bit overflow); Go `/` on signed integers truncates toward zero and
  is rendered as `Int.tdiv`, while Go's arithmetic right shift `>> 6` in
  `fixed.Int26_6.Ceil` floors and is rendered as `/` (`Int.ediv`, which
  floors for the positive divisor 64);
* the unbounded `for` loop of `drawLine` is given explicit fuel
  `|dx| + |dy| + 1`; the theorems below prove this fuel always suffices
  (the loop reaches its `break`).
-/

namespace Captcha

/-! ## Data model: captcha entries and the store (src/main.go lines 24-33) -/

/-- `captchaEntry` from `src/main.go`: equation text, answer, creation time
(`time.Time` is opaque to every claim, modelled as a `Nat` tick). -/
structure captchaEntry where
  equation : String
  answer : Int
  created : Nat
  deriving DecidableEq, Repr

/-- The `captchaStore.data` map, `map[string]captchaEntry`. -/
abbrev Store := String → Option captchaEntry

/-- The empty map the store starts with (`make(map[string]captchaEntry)`). -/
def emptyStore : Store := fun _ => none

/-- `captchaStore.data[captchaID] = entry`: Go map assignment. -/
def storeInsert (s : Store) (captchaID : String) (entry : captchaEntry) : Store :=
  fun k => if k = captchaID then some entry else s k

/-- `delete(captchaStore.data, captchaID)`: Go map deletion. -/
def storeDelete (s : Store) (captchaID : String) : Store :=
  fun k => if k = captchaID then none else s k

/-! ## Equation generation (src/main.go lines 123-162) -/

/-- `getRandomNumber(min, max)` (lines 146-149): a secure uniform draw in
`[min, max]`, obtained from the raw oracle draw `raw` reduced modulo
`max - min + 1` (the modulus `rand.Int` is called with). -/
def getRandomNumber (min max : Int) (raw : Nat) : Int :=
  (raw % (max - min + 1).toNat : Nat) + min

/-- `calculateAnswer(a, b, op)` (lines 151-162). -/
def calculateAnswer (a b : Int) (op : String) : Int :=
  if op = "+" then a + b
  else if op = "-" then a - b
  else if op = "*" then a * b
  else 0

/-- The `ops` slice of `generateEquation` (line 124). -/
def opsList : List String := ["+", "-", "*"]

/-- The `switch op` block of `generateEquation` (lines 128-139) choosing the
operands: add/multiply draw both from `[1,10]`; subtract draws `a` from
`[1,20]` and `b` from `[1,a]`.  `r1`, `r2` are the raw oracle draws behind
the two `getRandomNumber` calls. -/
def generateOperands (op : String) (r1 r2 : Nat) : Int × Int :=
  if op = "+" then (getRandomNumber 1 10 r1, getRandomNumber 1 10 r2)
  else if op = "-" then
    let a := getRandomNumber 1 20 r1
    (a, getRandomNumber 1 a r2)
  else if op = "*" then (getRandomNumber 1 10 r1, getRandomNumber 1 10 r2)
  else (0, 0)

/-- `generateEquation()` (lines 123-144): draw the operator index uniformly
from `[0, len(ops))` (raw draw `r0` reduced mod 3), draw the operands, format
`fmt.Sprintf("%d %s %d = ?", a, op, b)` and compute the answer. -/
def generateEquation (r0 r1 r2 : Nat) : String × Int :=
  let op := opsList.getD (r0 % opsList.length) ""
  let ab := generateOperands op r1 r2
  (toString ab.1 ++ " " ++ op ++ " " ++ toString ab.2 ++ " = ?",
   calculateAnswer ab.1 ab.2 op)

/-! ## HTTP handlers over the store (src/main.go lines 39-118) -/

/-- `strconv.Atoi`: optional sign followed by at least one decimal digit;
anything else is an error (`none`).  (Go additionally errors on values
outside 64-bit range; no claim involves such inputs.) -/
def atoi (s : String) : Option Int :=
  match s.data with
  | [] => none
  | c :: cs =>
    let signDigits : Bool × List Char :=
      if c = '-' then (true, cs)
      else if c = '+' then (false, cs)
      else (false, c :: cs)
    if signDigits.2.isEmpty then none
    else if signDigits.2.all (fun d => d.isDigit) then
      let n : Nat := signDigits.2.foldl (fun acc d => 10 * acc + (d.toNat - 48)) 0
      some (if signDigits.1 then -(n : Int) else (n : Int))
    else none

/-- The three responses the `POST /validate` handler can produce
(lines 102-117): HTTP 400 with "CAPTCHA expired or invalid", HTTP 400 with
"Incorrect answer, please try again", or HTTP 200 rendering `success.html`. -/
inductive ValidateResp where
  | expiredError
  | incorrectError
  | successPage
  deriving DecidableEq, Repr

/-- HTTP status code of each `POST /validate` response. -/
def respStatus : ValidateResp → Nat
  | .expiredError => 400
  | .incorrectError => 400
  | .successPage => 200

/-- User-facing error string of each `POST /validate` response. -/
def respMessage : ValidateResp → Option String
  | .expiredError => some "CAPTCHA expired or invalid"
  | .incorrectError => some "Incorrect answer, please try again"
  | .successPage => none

/-- The locked block of the `POST /validate` handler (lines 95-100): read the
entry under the token and delete it when present.  This is the store's
`consume` operation. -/
def consume (s : Store) (captchaID : String) : Store × Option captchaEntry :=
  match s captchaID with
  | some entry => (storeDelete s captchaID, some entry)
  | none => (s, none)

/-- The `POST /validate` handler (lines 91-118): consume the token, then
classify.  A missing token yields `expiredError`; a failed `strconv.Atoi`
or a parsed value different from the stored answer both take the single
`err != nil || userAnswerInt != entry.answer` branch (`incorrectError`);
otherwise the success page is rendered. -/
def validateHandler (s : Store) (captchaID userAnswer : String) :
    Store × ValidateResp :=
  let consumed := consume s captchaID
  match consumed.2 with
  | none => (consumed.1, .expiredError)
  | some entry =>
    match atoi userAnswer with
    | none => (consumed.1, .incorrectError)
    | some n =>
      if n ≠ entry.answer then (consumed.1, .incorrectError)
      else (consumed.1, .successPage)

/-- The store mutation shared by `GET /` and `GET /captcha/new`
(lines 39-72): generate an equation and insert it under the fresh uuid
`captchaID` with the current time. -/
def createCaptcha (s : Store) (captchaID : String) (r0 r1 r2 : Nat)
    (now : Nat) : Store :=
  let eqAns := generateEquation r0 r1 r2
  storeInsert s captchaID { equation := eqAns.1, answer := eqAns.2, created := now }

/-- The `GET /captcha/image/:id` handler (lines 74-89): a read-only lookup
(`RLock`).  `none` models `AbortWithStatus(404)`; `some eq` means the handler
answers `png.Encode(generateImage eq)`.  The pair returns the store the
handler leaves behind. -/
def imageHandler (s : Store) (captchaID : String) : Store × Option String :=
  match s captchaID with
  | none => (s, none)
  | some entry => (s, some entry.equation)

/-! ## Raster images (image.RGBA, image/draw, image/color) -/

/-- An 8-bit RGBA color value. -/
structure RGBA where
  r : Nat
  g : Nat
  b : Nat
  a : Nat
  deriving DecidableEq, Repr

/-- `image.White`'s color. -/
def whiteRGBA : RGBA := ⟨255, 255, 255, 255⟩

/-- `color.RGBA{0, 0, 0, 255}` (the glyph color) and `color.Black`. -/
def blackRGBA : RGBA := ⟨0, 0, 0, 255⟩

/-- An `image.RGBA` with bounds `(0,0)-(width,height)`: the dimensions plus
the pixel map. -/
structure RGBAImage where
  width : Nat
  height : Nat
  pix : Int × Int → RGBA

/-- `(*image.RGBA).Set(x, y, c)`: Go silently drops the write whenever
`(x, y)` is outside the bounds rectangle. -/
def RGBAImage.set (img : RGBAImage) (x y : Int) (c : RGBA) : RGBAImage :=
  if 0 ≤ x ∧ x < (img.width : Int) ∧ 0 ≤ y ∧ y < (img.height : Int) then
    { img with pix := fun p => if p.1 = x ∧ p.2 = y then c else img.pix p }
  else img

/-- `image.NewRGBA(image.Rect(0, 0, w, h))` followed by
`draw.Draw(img, img.Bounds(), image.White, image.Point{}, draw.Src)`
(lines 166-167): a `w × h` canvas whose in-bounds pixels are all white
(out-of-bounds reads are the zero color, as in Go). -/
def newWhiteImage (w h : Nat) : RGBAImage :=
  { width := w, height := h,
    pix := fun p =>
      if 0 ≤ p.1 ∧ p.1 < (w : Int) ∧ 0 ≤ p.2 ∧ p.2 < (h : Int) then whiteRGBA
      else ⟨0, 0, 0, 0⟩ }

/-! ## Bresenham line drawing (src/main.go lines 207-241) -/

/-- `abs(x)` (lines 236-241). -/
def abs (x : Int) : Int := if x < 0 then -x else x

/-- The `for` loop of `drawLine` (lines 219-233), recorded as the list of
pixels passed to `img.Set`, in order.  Each iteration plots `(x0, y0)`,
breaks once the endpoint is reached, and otherwise advances `x0` and/or `y0`
exactly as the Go code updates the error term `err`:
`e2 := 2*err; if e2 > -dy { err -= dy; x0 += sx }; if e2 < dx { err += dx; y0 += sy }`.
The loop is unbounded in Go, so the recursion carries explicit fuel; an
exhausted fuel ends the list (the specification theorems prove the fuel
chosen in `drawLinePixels` always reaches the `break`). -/
def drawLineAux (x1 y1 sx sy dx dy : Int) :
    Nat → Int → Int → Int → List (Int × Int)
  | 0, _, _, _ => []
  | fuel + 1, x0, y0, e =>
    if x0 = x1 ∧ y0 = y1 then [(x0, y0)]
    else
      let e2 := 2 * e
      let x0n := if e2 > -dy then x0 + sx else x0
      let e3 := if e2 > -dy then e - dy else e
      let y0n := if e2 < dx then y0 + sy else y0
      let e4 := if e2 < dx then e3 + dx else e3
      (x0, y0) :: drawLineAux x1 y1 sx sy dx dy fuel x0n y0n e4

/-- The pixels written by `drawLine(img, x0, y0, x1, y1, color)`
(lines 207-234): `dx = abs(x1-x0)`, `dy = abs(y1-y0)`, steps `sx`, `sy` are
`-1` exactly when the corresponding start coordinate exceeds the end
coordinate, and the error term starts at `dx - dy`. -/
def drawLinePixels (x0 y0 x1 y1 : Int) : List (Int × Int) :=
  let dx := abs (x1 - x0)
  let dy := abs (y1 - y0)
  let sx : Int := if x0 > x1 then -1 else 1
  let sy : Int := if y0 > y1 then -1 else 1
  drawLineAux x1 y1 sx sy dx dy (dx + dy + 1).toNat x0 y0 (dx - dy)

/-- `drawLine` (lines 207-234): its only effect on the image is the sequence
of `img.Set` calls of the loop, applied here in order. -/
def drawLine (img : RGBAImage) (x0 y0 x1 y1 : Int) (c : RGBA) : RGBAImage :=
  (drawLinePixels x0 y0 x1 y1).foldl (fun im ab => im.set ab.1 ab.2 c) img

/-! ## Distortion and image generation (src/main.go lines 164-205, 243-246) -/

/-- `randInt(max)` (lines 243-246): a uniform draw in `[0, max)`, the raw
oracle draw reduced modulo `max`. -/
def randInt (max raw : Nat) : Nat := raw % max

/-- The ten noise strokes of `addDistortion` (lines 197-205): iteration `i`
draws `x1, y1, x2, y2` as the `4i`-th through `4i+3`-rd `randInt` calls
against the oracle stream `r`. -/
def noiseLines (width height : Nat) (r : Nat → Nat) :
    List (Int × Int × Int × Int) :=
  (List.range 10).map (fun i =>
    ((randInt width (r (4 * i)) : Nat),
     (randInt height (r (4 * i + 1)) : Nat),
     (randInt width (r (4 * i + 2)) : Nat),
     (randInt height (r (4 * i + 3)) : Nat)))

/-- `addDistortion(img, width, height)` (lines 197-205): draw the ten random
black lines over the image. -/
def addDistortion (img : RGBAImage) (width height : Nat) (r : Nat → Nat) :
    RGBAImage :=
  (noiseLines width height r).foldl
    (fun im l => drawLine im l.1 l.2.1 l.2.2.1 l.2.2.2 blackRGBA) img

/-- The behaviour of the external font library as consulted by
`generateImage`: whether `opentype.Parse(goregular.TTF)` succeeds, whether
`opentype.NewFace(ttfFont, &FaceOptions{Size: 32, DPI: 72, HintingFull})`
succeeds, the value of `font.MeasureString(face, text)` (a `fixed.Int26_6`,
i.e. 26.6 fixed point carried as `Int`), and the effect of
`font.Drawer{Dst, Src: black, Face, Dot}.DrawString(text)` on the
destination image's pixel map given the dot's pixel coordinates
(`DrawString` paints pixels of `Dst` in place; it cannot change the canvas
bounds).  The library is fixed
for the whole process (same embedded font bytes, same face options), so every
render call consults the same `FontLib`. -/
structure FontLib where
  parseOK : Bool
  faceOK : Bool
  measureString : String → Int
  drawString : String → Int × Int → (Int × Int → RGBA) → (Int × Int → RGBA)

/-- `fixed.I(i)`: an integer as 26.6 fixed point. -/
def fixedI (n : Int) : Int := n * 64

/-- `fixed.Int26_6.Ceil()`: `int((x + 0x3f) >> 6)`; the arithmetic right
shift floors, and `/` on `Int` is floor division for the divisor 64. -/
def fixedCeil (x : Int) : Int := (x + 63) / 64

/-- `startX.Ceil()` for `startX := (fixed.I(width) - textWidth) / 2`
(lines 183-184, width = 200): Go division of the fixed-point value truncates
toward zero (`Int.tdiv`), then the ceiling converts to pixels.  This is the
x pixel coordinate of the drawer's dot. -/
def textDotX (lib : FontLib) (text : String) : Int :=
  fixedCeil (Int.tdiv (fixedI 200 - lib.measureString text) 2)

/-- The canvas as it stands after the glyphs are drawn and before the noise
is added (lines 166-192): the white 200×80 canvas with `text` drawn at dot
`(startX.Ceil(), 50)`.  It depends only on the library and the text. -/
def glyphCanvas (lib : FontLib) (text : String) : RGBAImage :=
  { width := 200, height := 80,
    pix := lib.drawString text (textDotX lib text, 50) (newWhiteImage 200 80).pix }

/-- `generateImage(text)` (lines 164-196) under font library `lib` and noise
oracle `r`.  `none` models the `panic(err)` taken when `opentype.Parse` or
`opentype.NewFace` fails — both are executed inside this per-request call. -/
def generateImage (lib : FontLib) (text : String) (r : Nat → Nat) :
    Option RGBAImage :=
  if lib.parseOK then
    if lib.faceOK then
      some (addDistortion (glyphCanvas lib text) 200 80 r)
    else none
  else none

/-! ## Specification-side definition used for comparison -/

/-- The spec's arithmetic (`a+b`, `a-b`, or `a*b` according to the operator
symbol), stated independently of `calculateAnswer` so the two can be
compared. -/
def evalOpSpec (op : String) (a b : Int) : Int :=
  if op = "+" then a + b
  else if op = "-" then a - b
  else a * b

/-! ## Concrete fixtures used by witnesses and counterexamples -/

/-- A store holding one challenge, `3 + 4 = ?` with answer 7, under token
"tok" (the end-to-end scenario of the spec). -/
def sampleStore : Store :=
  storeInsert emptyStore "tok" { equation := "3 + 4 = ?", answer := 7, created := 0 }

/-- A healthy font library instance: parsing and face construction succeed
(as they do for the embedded `goregular.TTF`); measuring and glyph drawing
are a definite concrete behaviour. -/
def testLib : FontLib :=
  { parseOK := true
    faceOK := true
    measureString := fun text => fixedI (12 * (text.length : Int))
    drawString := fun _ dot pm => fun p =>
      if p.1 = dot.1 ∧ p.2 = dot.2 then blackRGBA else pm p }

/-- A font library instance whose `opentype.Parse` call fails. -/
def badFontLib : FontLib :=
  { parseOK := false
    faceOK := true
    measureString := fun _ => 0
    drawString := fun _ _ pm => pm }

/-- A noise oracle: every raw draw is 0. -/
def zeroStream : Nat → Nat := fun _ => 0

/-- A different noise oracle whose raw draws (all 1600) nevertheless reduce
to the same line endpoints modulo 200 and modulo 80. -/
def altStream : Nat → Nat := fun _ => 1600

/-! ## Store lemmas -/

theorem storeDelete_of_none {s : Store} {c : String} (h : s c = none) :
    storeDelete s c = s := by
  funext k
  by_cases hk : k = c
  · simp [storeDelete, hk, h.symm]
  · simp [storeDelete, hk]

theorem storeDelete_self (s : Store) (c : String) : storeDelete s c c = none := by
  simp [storeDelete]

theorem consume_eq (s : Store) (c : String) :
    consume s c = (storeDelete s c, s c) := by
  unfold consume
  cases h : s c with
  | some e => rfl
  | none => rw [storeDelete_of_none h]

theorem validateHandler_fst (s : Store) (c a : String) :
    (validateHandler s c a).1 = (consume s c).1 := by
  rcases hc : consume s c with ⟨s1, e⟩
  simp only [validateHandler, hc]
  cases e with
  | none => rfl
  | some entry =>
    cases h : atoi a with
    | none => rfl
    | some n => by_cases hn : n ≠ entry.answer <;> simp [hn]

theorem validateHandler_of_none {s : Store} {c : String} (h : s c = none)
    (a : String) : validateHandler s c a = (s, .expiredError) := by
  simp only [validateHandler, consume, h]

/-! ## Claim C1 -/

/-- C1: every `POST /validate` call removes the token's challenge from the
store no matter what the submitted answer is: the consume step returns the
stored challenge and leaves the store with the token deleted, the handler's
resulting store never contains the token, and any later consume or validate
of the same token observes `NotFound` (the "CAPTCHA expired or invalid"
response). -/
theorem validate_consumes_single_use (s : Store) (captchaID a a2 : String) :
    consume s captchaID = (storeDelete s captchaID, s captchaID) ∧
    (validateHandler s captchaID a).1 = storeDelete s captchaID ∧
    ((validateHandler s captchaID a).1) captchaID = none ∧
    (consume ((validateHandler s captchaID a).1) captchaID).2 = none ∧
    (validateHandler ((validateHandler s captchaID a).1) captchaID a2).2 =
      .expiredError := by
  have hfst : (validateHandler s captchaID a).1 = storeDelete s captchaID := by
    rw [validateHandler_fst, consume_eq]
  have hnone : ((validateHandler s captchaID a).1) captchaID = none := by
    rw [hfst]; exact storeDelete_self s captchaID
  refine ⟨consume_eq s captchaID, hfst, hnone, ?_, ?_⟩
  · rw [consume_eq, hnone]
  · rw [validateHandler_of_none hnone]

/-- C1 witness: on the sample store, the first consume of "tok" returns the
stored challenge and a second validate of "tok" reports it expired. -/
theorem validate_consumes_single_use_witness :
    (consume sampleStore "tok").2 = some ⟨"3 + 4 = ?", 7, 0⟩ ∧
    (validateHandler ((validateHandler sampleStore "tok" "7").1) "tok" "8").2 =
      .expiredError := by
  constructor
  · have h := (validate_consumes_single_use sampleStore "tok" "7" "8").1
    rw [h]
    decide
  · exact (validate_consumes_single_use sampleStore "tok" "7" "8").2.2.2.2

/-! ## Claim C2 -/

/-- C2 counterexample: the claim asserts Malformed and Incorrect are
distinct, distinguishable failure reasons, but the handler's single
`err != nil || userAnswerInt != entry.answer` branch makes the response to
the unparseable answer "seven" literally identical — same branch, same HTTP
status 400, same message — to the response to the wrong answer "8" on the
same stored challenge `3 + 4 = ?`. -/
theorem malformed_incorrect_same_response :
    (validateHandler sampleStore "tok" "seven").2 =
      (validateHandler sampleStore "tok" "8").2 ∧
    respStatus (validateHandler sampleStore "tok" "seven").2 =
      respStatus (validateHandler sampleStore "tok" "8").2 ∧
    respMessage (validateHandler sampleStore "tok" "seven").2 =
      respMessage (validateHandler sampleStore "tok" "8").2 := by
  decide

/-- C2 (amended): validate classifies in evaluation order — `expiredError`
exactly when the token is absent or already consumed; one single failure
response (`incorrectError`, HTTP 400 "Incorrect answer, please try again")
exactly when the token was present but the answer either does not parse as
an integer or parses to a value different from the stored answer; and the
success page exactly when the token was present and the parsed integer
equals the stored answer. -/
theorem validate_classification (s : Store) (captchaID ans : String) :
    ((validateHandler s captchaID ans).2 = .expiredError ↔ s captchaID = none) ∧
    ((validateHandler s captchaID ans).2 = .successPage ↔
      ∃ e, s captchaID = some e ∧ atoi ans = some e.answer) ∧
    ((validateHandler s captchaID ans).2 = .incorrectError ↔
      ∃ e, s captchaID = some e ∧ atoi ans ≠ some e.answer) := by
  unfold validateHandler consume
  cases hs : s captchaID with
  | none => simp
  | some entry =>
    cases ha : atoi ans with
    | none => simp
    | some n =>
      by_cases hn : n = entry.answer <;> simp [hn]

/-- C2 witness: the classification applied to the end-to-end scenario —
correct answer "7" succeeds, missing token expires. -/
theorem validate_classification_witness :
    (validateHandler sampleStore "tok" "7").2 = .successPage ∧
    (validateHandler sampleStore "missing" "7").2 = .expiredError := by
  constructor
  · exact ((validate_classification sampleStore "tok" "7").2.1).mpr
      ⟨⟨"3 + 4 = ?", 7, 0⟩, by decide, by decide⟩
  · exact ((validate_classification sampleStore "missing" "7").1).mpr (by decide)

/-! ## Claim C9 -/

/-- C9: the `GET /captcha/image/:id` handler is a non-destructive peek — it
returns the equation text stored under the token (the text that was
generated when the challenge was created), leaves the store untouched (the
token can still be consumed afterwards, with the same result as before the
peek), and answers not-found on an unknown token, also without touching the
store. -/
theorem imageHandler_peek_frame (s : Store) (captchaID freshID : String)
    (r0 r1 r2 now : Nat) :
    (imageHandler s captchaID).1 = s ∧
    (imageHandler s captchaID).2 = (s captchaID).map captchaEntry.equation ∧
    (s captchaID = none → (imageHandler s captchaID).2 = none) ∧
    consume ((imageHandler s captchaID).1) captchaID = consume s captchaID ∧
    (imageHandler (createCaptcha s freshID r0 r1 r2 now) freshID).2 =
      some (generateEquation r0 r1 r2).1 := by
  refine ⟨?_, ?_, ?_, ?_, ?_⟩
  · unfold imageHandler; cases s captchaID <;> rfl
  · unfold imageHandler; cases s captchaID <;> rfl
  · intro h; unfold imageHandler; rw [h]
  · unfold imageHandler; cases s captchaID <;> rfl
  · unfold imageHandler createCaptcha storeInsert
    simp

/-- C9 witness: peeking "tok" on the sample store returns its equation text
and leaves the store unchanged; peeking an unknown token returns none. -/
theorem imageHandler_peek_frame_witness :
    (imageHandler sampleStore "tok").2 = some "3 + 4 = ?" ∧
    (imageHandler sampleStore "tok").1 = sampleStore ∧
    (imageHandler sampleStore "missing").2 = none := by
  refine ⟨?_, (imageHandler_peek_frame sampleStore "tok" "f" 0 0 0 0).1, ?_⟩
  · rw [(imageHandler_peek_frame sampleStore "tok" "f" 0 0 0 0).2.1]
    decide
  · exact (imageHandler_peek_frame sampleStore "missing" "f" 0 0 0 0).2.2.1
      (by decide)

/-! ## Claims C3 and C4 -/

theorem getRandomNumber_bounds (min max : Int) (raw : Nat) (h : min ≤ max) :
    min ≤ getRandomNumber min max raw ∧ getRandomNumber min max raw ≤ max := by
  unfold getRandomNumber
  have hm : raw % (max - min + 1).toNat < (max - min + 1).toNat :=
    Nat.mod_lt _ (by omega)
  omega

/-- C3: every generated challenge uses an operator among `+`, `-`, `*`, its
answer is the integer arithmetic evaluation of the two operands under that
operator (`a+b`, `a-b`, or `a*b`, as `calculateAnswer` computes), and its
equation text is exactly `"<a> <op> <b> = ?"` for those same operands. -/
theorem generateEquation_operator_answer (r0 r1 r2 : Nat) :
    ∃ a b op, (op = "+" ∨ op = "-" ∨ op = "*") ∧
      generateEquation r0 r1 r2 =
        (toString a ++ " " ++ op ++ " " ++ toString b ++ " = ?",
         evalOpSpec op a b) ∧
      calculateAnswer a b op = evalOpSpec op a b := by
  have h3 : r0 % 3 = 0 ∨ r0 % 3 = 1 ∨ r0 % 3 = 2 := by omega
  rcases h3 with h | h | h
  · exact ⟨(generateOperands "+" r1 r2).1, (generateOperands "+" r1 r2).2, "+",
      Or.inl rfl,
      by simp [generateEquation, opsList, h, calculateAnswer, evalOpSpec],
      by simp [calculateAnswer, evalOpSpec]⟩
  · exact ⟨(generateOperands "-" r1 r2).1, (generateOperands "-" r1 r2).2, "-",
      Or.inr (Or.inl rfl),
      by simp [generateEquation, opsList, h, calculateAnswer, evalOpSpec],
      by simp [calculateAnswer, evalOpSpec]⟩
  · exact ⟨(generateOperands "*" r1 r2).1, (generateOperands "*" r1 r2).2, "*",
      Or.inr (Or.inr rfl),
      by simp [generateEquation, opsList, h, calculateAnswer, evalOpSpec],
      by simp [calculateAnswer, evalOpSpec]⟩

/-- C4: operand ranges — the equation text is built from the operands chosen
by the `switch`; for `+` and `*` both operands lie in `[1,10]`; for `-` the
first operand lies in `[1,20]`, the second in `[1,a]`, so the subtraction
answer is non-negative. -/
theorem generateEquation_operand_ranges (r0 r1 r2 : Nat) :
    (generateEquation r0 r1 r2).1 =
      toString (generateOperands (opsList.getD (r0 % opsList.length) "") r1 r2).1
        ++ " " ++ opsList.getD (r0 % opsList.length) "" ++ " " ++
        toString (generateOperands (opsList.getD (r0 % opsList.length) "") r1 r2).2
        ++ " = ?" ∧
    ((opsList.getD (r0 % opsList.length) "" = "+" ∨
      opsList.getD (r0 % opsList.length) "" = "*") →
      1 ≤ (generateOperands (opsList.getD (r0 % opsList.length) "") r1 r2).1 ∧
      (generateOperands (opsList.getD (r0 % opsList.length) "") r1 r2).1 ≤ 10 ∧
      1 ≤ (generateOperands (opsList.getD (r0 % opsList.length) "") r1 r2).2 ∧
      (generateOperands (opsList.getD (r0 % opsList.length) "") r1 r2).2 ≤ 10) ∧
    (opsList.getD (r0 % opsList.length) "" = "-" →
      1 ≤ (generateOperands "-" r1 r2).1 ∧
      (generateOperands "-" r1 r2).1 ≤ 20 ∧
      1 ≤ (generateOperands "-" r1 r2).2 ∧
      (generateOperands "-" r1 r2).2 ≤ (generateOperands "-" r1 r2).1 ∧
      0 ≤ (generateEquation r0 r1 r2).2) := by
  refine ⟨rfl, ?_, ?_⟩
  · intro hop
    have h10 : (1 : Int) ≤ 10 := by norm_num
    rcases hop with hop | hop <;> rw [hop] <;>
      simp only [generateOperands] <;> norm_num <;>
      exact ⟨(getRandomNumber_bounds 1 10 r1 h10).1,
        (getRandomNumber_bounds 1 10 r1 h10).2,
        (getRandomNumber_bounds 1 10 r2 h10).1,
        (getRandomNumber_bounds 1 10 r2 h10).2⟩
  · intro hop
    have h20 : (1 : Int) ≤ 20 := by norm_num
    have ha := getRandomNumber_bounds 1 20 r1 h20
    have hb := getRandomNumber_bounds 1 (getRandomNumber 1 20 r1) r2 ha.1
    have hab : (generateOperands "-" r1 r2) =
        (getRandomNumber 1 20 r1, getRandomNumber 1 (getRandomNumber 1 20 r1) r2) := by
      simp [generateOperands]
    have hans : (generateEquation r0 r1 r2).2 =
        calculateAnswer (generateOperands "-" r1 r2).1
          (generateOperands "-" r1 r2).2 "-" := by
      unfold generateEquation
      rw [hop]
    rw [hab, hans, hab]
    simp only [calculateAnswer]
    norm_num
    refine ⟨ha.1, ha.2, hb.1, hb.2, by omega⟩

/-! ## Image helper lemmas -/

theorem foldl_set_dims (c : RGBA) (ls : List (Int × Int)) :
    ∀ img : RGBAImage,
      (ls.foldl (fun im ab => im.set ab.1 ab.2 c) img).width = img.width ∧
      (ls.foldl (fun im ab => im.set ab.1 ab.2 c) img).height = img.height := by
  induction ls with
  | nil => exact fun img => ⟨rfl, rfl⟩
  | cons a t ih =>
    intro img
    rw [List.foldl_cons]
    refine ⟨?_, ?_⟩
    · rw [(ih _).1]; unfold RGBAImage.set; split <;> rfl
    · rw [(ih _).2]; unfold RGBAImage.set; split <;> rfl

theorem drawLine_dims (img : RGBAImage) (x0 y0 x1 y1 : Int) (c : RGBA) :
    (drawLine img x0 y0 x1 y1 c).width = img.width ∧
    (drawLine img x0 y0 x1 y1 c).height = img.height := by
  unfold drawLine
  exact foldl_set_dims c (drawLinePixels x0 y0 x1 y1) img

theorem addDistortion_dims (w h : Nat) (r : Nat → Nat) :
    ∀ img : RGBAImage,
      (addDistortion img w h r).width = img.width ∧
      (addDistortion img w h r).height = img.height := by
  unfold addDistortion
  generalize noiseLines w h r = ls
  induction ls with
  | nil => exact fun img => ⟨rfl, rfl⟩
  | cons a t ih =>
    intro img
    rw [List.foldl_cons]
    have hd := drawLine_dims img a.1 a.2.1 a.2.2.1 a.2.2.2 blackRGBA
    obtain ⟨hw, hh⟩ := ih (drawLine img a.1 a.2.1 a.2.2.1 a.2.2.2 blackRGBA)
    exact ⟨hw.trans hd.1, hh.trans hd.2⟩

theorem addDistortion_congr {r1 r2 : Nat → Nat} (img : RGBAImage) (w h : Nat)
    (hn : noiseLines w h r1 = noiseLines w h r2) :
    addDistortion img w h r1 = addDistortion img w h r2 := by
  unfold addDistortion
  rw [hn]

theorem generateImage_noise_congr (lib : FontLib) (text : String)
    {r1 r2 : Nat → Nat} (hn : noiseLines 200 80 r1 = noiseLines 200 80 r2) :
    generateImage lib text r1 = generateImage lib text r2 := by
  unfold generateImage
  rw [addDistortion_congr _ _ _ hn]

theorem generateImage_some_dims (lib : FontLib) (text : String) (r : Nat → Nat)
    (img : RGBAImage) (h : generateImage lib text r = some img) :
    img.width = 200 ∧ img.height = 80 := by
  unfold generateImage at h
  by_cases hp : lib.parseOK
  · by_cases hf : lib.faceOK
    · simp only [hp, hf, if_true] at h
      obtain rfl : addDistortion (glyphCanvas lib text) 200 80 r = img :=
        Option.some.injEq _ _ ▸ h
      obtain ⟨hw, hh⟩ := addDistortion_dims 200 80 r (glyphCanvas lib text)
      exact ⟨hw, hh⟩
    · simp [hp, hf] at h
  · simp [hp] at h

theorem noiseLines_mem_bounds (r : Nat → Nat) :
    ∀ l ∈ noiseLines 200 80 r,
      0 ≤ l.1 ∧ l.1 < 200 ∧ 0 ≤ l.2.1 ∧ l.2.1 < 80 ∧
      0 ≤ l.2.2.1 ∧ l.2.2.1 < 200 ∧ 0 ≤ l.2.2.2 ∧ l.2.2.2 < 80 := by
  intro l hl
  simp only [noiseLines, List.mem_map] at hl
  obtain ⟨i, _, rfl⟩ := hl
  have h1 : r (4 * i) % 200 < 200 := Nat.mod_lt _ (by norm_num)
  have h2 : r (4 * i + 1) % 80 < 80 := Nat.mod_lt _ (by norm_num)
  have h3 : r (4 * i + 2) % 200 < 200 := Nat.mod_lt _ (by norm_num)
  have h4 : r (4 * i + 3) % 80 < 80 := Nat.mod_lt _ (by norm_num)
  simp only [randInt]
  refine ⟨by positivity, ?_, by positivity, ?_, by positivity, ?_, by positivity, ?_⟩
  all_goals exact_mod_cast ‹_›

theorem textDotX_centered (lib : FontLib) (text : String) :
    abs (128 * textDotX lib text - (12800 - lib.measureString text)) ≤ 127 := by
  unfold textDotX fixedCeil fixedI abs
  set v : Int := 200 * 64 - lib.measureString text with hv
  rcases le_or_lt 0 v with h | h
  · rw [Int.tdiv_eq_ediv h (by norm_num)]
    split <;> omega
  · have h2 : Int.tdiv v 2 = -((-v) / 2) := by
      rw [← Int.tdiv_eq_ediv (by omega) (by norm_num), ← Int.neg_tdiv, Int.neg_neg]
    rw [h2]
    split <;> omega

/-! ## Claim C5 -/

/-- C5 counterexample: the claim says a font-load failure can only occur at
startup and is never a per-request condition; but `opentype.Parse` is called
inside `generateImage` on every render call, so a render call under a
failing font load itself takes the panic path (`none`) — a per-request
failure of a per-request font load. -/
theorem fontload_failure_in_render_call :
    generateImage badFontLib "3 + 4 = ?" zeroStream = none ∧
    badFontLib.parseOK = false :=
  ⟨rfl, rfl⟩

/-- C5 (amended): the font is parsed (and the face built) inside every
render call, not once at startup: a render call fails (panics) exactly when
that in-call font load fails, and when the embedded font parses and the face
builds — as they do for `goregular.TTF` — every render call returns an
image. -/
theorem generateImage_fontload_per_call (lib : FontLib) (text : String)
    (r : Nat → Nat) :
    (generateImage lib text r = none ↔
      (lib.parseOK = false ∨ lib.faceOK = false)) ∧
    (lib.parseOK = true → lib.faceOK = true →
      generateImage lib text r =
        some (addDistortion (glyphCanvas lib text) 200 80 r)) := by
  constructor
  · cases hp : lib.parseOK <;> cases hf : lib.faceOK <;>
      simp [generateImage, hp, hf]
  · intro hp hf
    simp [generateImage, hp, hf]

/-- C5 witness: with the healthy library the render call returns the
distorted glyph canvas. -/
theorem generateImage_fontload_per_call_witness :
    generateImage testLib "3 + 4 = ?" zeroStream =
      some (addDistortion (glyphCanvas testLib "3 + 4 = ?") 200 80 zeroStream) :=
  (generateImage_fontload_per_call testLib "3 + 4 = ?" zeroStream).2 rfl rfl

/-! ## Claim C6 -/

/-- C6 counterexample: two invocations fed different raw randomness (the
oracles differ already at their first draw) still produce byte-identical
images, because the raw draws reduce to the same ten stroke endpoints —
"never byte-identical" fails. -/
theorem identical_images_possible :
    zeroStream 0 ≠ altStream 0 ∧
    generateImage testLib "3 + 4 = ?" zeroStream =
      generateImage testLib "3 + 4 = ?" altStream := by
  refine ⟨by decide, generateImage_noise_congr testLib "3 + 4 = ?" ?_⟩
  decide

/-- C6 (amended): glyph placement is a pure function of the text — a
successful render is always the noise overlay applied to `glyphCanvas`,
which depends only on the (fixed) font library and the text, and the canvas
dimensions are always 200×80 — while the noise strokes are recomputed from
the fresh random draws of each invocation; two renders of the same text
whose draws reduce to the same ten strokes are byte-identical, so identical
output is possible (merely improbable): the code never guarantees distinct
images. -/
theorem render_glyphs_pure_noise_random (lib : FontLib) (text : String)
    (r1 r2 : Nat → Nat) :
    (generateImage lib text r1).isSome = (generateImage lib text r2).isSome ∧
    (∀ img, generateImage lib text r1 = some img →
      img.width = 200 ∧ img.height = 80) ∧
    (lib.parseOK = true → lib.faceOK = true →
      generateImage lib text r1 =
        some (addDistortion (glyphCanvas lib text) 200 80 r1) ∧
      generateImage lib text r2 =
        some (addDistortion (glyphCanvas lib text) 200 80 r2)) ∧
    (noiseLines 200 80 r1 = noiseLines 200 80 r2 →
      generateImage lib text r1 = generateImage lib text r2) := by
  refine ⟨?_, ?_, ?_, ?_⟩
  · cases hp : lib.parseOK <;> cases hf : lib.faceOK <;>
      simp [generateImage, hp, hf]
  · exact fun img h => generateImage_some_dims lib text r1 img h
  · intro hp hf
    exact ⟨(generateImage_fontload_per_call lib text r1).2 hp hf,
           (generateImage_fontload_per_call lib text r2).2 hp hf⟩
  · exact generateImage_noise_congr lib text

/-- C6 witness: the invariants at a concrete render — same text rendered
under two unequal noise draws yields two well-formed 200×80 images. -/
theorem render_glyphs_pure_noise_random_witness :
    (generateImage testLib "20 - 8 = ?" zeroStream).isSome =
      (generateImage testLib "20 - 8 = ?" (fun k => k)).isSome ∧
    (addDistortion (glyphCanvas testLib "20 - 8 = ?") 200 80 zeroStream).width
      = 200 :=
  ⟨(render_glyphs_pure_noise_random testLib "20 - 8 = ?" zeroStream
      (fun k => k)).1,
   ((render_glyphs_pure_noise_random testLib "20 - 8 = ?" zeroStream
      (fun k => k)).2.1 _
      (((render_glyphs_pure_noise_random testLib "20 - 8 = ?" zeroStream
        (fun k => k)).2.2.1 rfl rfl).1)).1⟩

/-! ## Claim C7 -/

/-- C7: a render produces a canvas of exactly 200×80 pixels, starting from a
canvas filled solid white, with the text drawn at the horizontally centering
dot (`startX.Ceil()`, left and right margins balanced to within two pixels
of 26.6 rounding) on the fixed baseline `y = 50`, and overlays exactly 10
noise strokes whose endpoints are drawn from the per-call random oracle,
each landing inside the canvas bounds `[0,200) × [0,80)`. -/
theorem render_canvas_strokes (lib : FontLib) (text : String) (r : Nat → Nat) :
    (∀ img, generateImage lib text r = some img →
      img.width = 200 ∧ img.height = 80) ∧
    (∀ x y : Int, 0 ≤ x → x < 200 → 0 ≤ y → y < 80 →
      (newWhiteImage 200 80).pix (x, y) = whiteRGBA) ∧
    (lib.parseOK = true → lib.faceOK = true →
      generateImage lib text r =
        some (addDistortion
          ⟨200, 80, lib.drawString text (textDotX lib text, 50)
            (newWhiteImage 200 80).pix⟩ 200 80 r)) ∧
    abs (128 * textDotX lib text - (12800 - lib.measureString text)) ≤ 127 ∧
    (noiseLines 200 80 r).length = 10 ∧
    (∀ l ∈ noiseLines 200 80 r,
      0 ≤ l.1 ∧ l.1 < 200 ∧ 0 ≤ l.2.1 ∧ l.2.1 < 80 ∧
      0 ≤ l.2.2.1 ∧ l.2.2.1 < 200 ∧ 0 ≤ l.2.2.2 ∧ l.2.2.2 < 80) := by
  refine ⟨generateImage_some_dims lib text r, ?_, ?_, textDotX_centered lib text,
    ?_, noiseLines_mem_bounds r⟩
  · intro x y hx0 hx hy0 hy
    simp [newWhiteImage, hx0, hx, hy0, hy]
  · intro hp hf
    exact (generateImage_fontload_per_call lib text r).2 hp hf
  · simp [noiseLines]

/-- C7 witness: the pipeline at a concrete call — the healthy library
renders "3 + 4 = ?" into a 200×80 image, with ten in-bounds strokes; one
concrete stroke of the zero oracle is `(0,0)-(0,0)`. -/
theorem render_canvas_strokes_witness :
    (noiseLines 200 80 zeroStream).length = 10 ∧
    (0, 0, 0, 0) ∈ noiseLines 200 80 zeroStream ∧
    (0 : Int) ≤ 0 ∧ (0 : Int) < 200 ∧
    (newWhiteImage 200 80).pix (5, 5) = whiteRGBA := by
  have h := render_canvas_strokes testLib "3 + 4 = ?" zeroStream
  refine ⟨h.2.2.2.2.1, by decide, ?_, ?_, ?_⟩
  · have := h.2.2.2.2.2 (0, 0, 0, 0) (by decide)
    exact this.1
  · have := h.2.2.2.2.2 (0, 0, 0, 0) (by decide)
    exact this.2.1
  · exact h.2.1 5 5 (by norm_num) (by norm_num) (by norm_num) (by norm_num)

/-- C4 witness: concrete draws exercise both the add range and the subtract
range (operator index 0 is `+`, index 1 is `-`). -/
theorem generateEquation_operand_ranges_witness :
    (opsList.getD (0 % opsList.length) "" = "+" ∨
      opsList.getD (0 % opsList.length) "" = "*") ∧
    1 ≤ (generateOperands (opsList.getD (0 % opsList.length) "") 5 9).1 ∧
    opsList.getD (1 % opsList.length) "" = "-" ∧
    0 ≤ (generateEquation 1 19 7).2 := by
  refine ⟨Or.inl (by decide), ?_, by decide, ?_⟩
  · exact ((generateEquation_operand_ranges 0 5 9).2.1 (Or.inl (by decide))).1
  · exact ((generateEquation_operand_ranges 1 19 7).2.2 (by decide)).2.2.2.2

/-! ## Bresenham line-drawing invariants (claims C8 and C10) -/

set_option maxHeartbeats 1000000

theorem bres_noovershoot_x (dx dy q : Int) (hdx : 0 ≤ dx) (hdy : 0 ≤ dy)
    (hq : 1 ≤ q) : ¬ (2 * ((0 : Int) * dy - q * dx) > dy - 2 * dx) := by
  intro h
  nlinarith [mul_nonneg hdx (by omega : (0:Int) ≤ q - 1)]

theorem bres_noovershoot_y (dx dy p : Int) (hdx : 0 ≤ dx) (hdy : 0 ≤ dy)
    (hp : 1 ≤ p) : ¬ (2 * (p * dy - (0 : Int) * dx) < 2 * dy - dx) := by
  intro h
  nlinarith [mul_nonneg hdy (by omega : (0:Int) ≤ p - 1)]

theorem bres_progress (dx dy p q : Int) (hdx : 0 ≤ dx) (hdy : 0 ≤ dy)
    (hp : 0 ≤ p) (hpd : p ≤ dx) (hq : 0 ≤ q) (hqd : q ≤ dy)
    (hnf : 1 ≤ p ∨ 1 ≤ q)
    (hCx : ¬ (2 * (p * dy - q * dx) > dy - 2 * dx))
    (hCy : ¬ (2 * (p * dy - q * dx) < 2 * dy - dx)) : False := by
  omega

theorem bres_major_x (dx dy p q : Int) (hdx : 0 ≤ dx) (hdy : 0 ≤ dy)
    (hp : 0 ≤ p) (hpd : p ≤ dx) (hq : 0 ≤ q) (hqd : q ≤ dy) (hpq : q < p)
    (hG1 : 2 * (p * dy - q * dx) ≤ max dx dy)
    (hG2 : -(max dx dy) ≤ 2 * (p * dy - q * dx)) :
    2 * (p * dy - q * dx) > dy - 2 * dx := by
  rcases le_or_lt dx dy with hcase | hcase
  · exfalso
    rw [max_eq_right hcase] at hG1
    nlinarith [mul_nonneg hq (by omega : (0:Int) ≤ dy - dx),
      mul_nonneg (by omega : (0:Int) ≤ p - q - 1) hdy]
  · rw [max_eq_left (le_of_lt hcase)] at hG2
    omega

theorem bres_diag_x (dx dy m : Int) (hdx : 0 ≤ dx) (hdy : 0 ≤ dy)
    (hm : 1 ≤ m) (hmd : m ≤ dx) (hme : m ≤ dy)
    (hG1 : 2 * (m * dy - m * dx) ≤ max dx dy)
    (hG2 : -(max dx dy) ≤ 2 * (m * dy - m * dx)) :
    2 * (m * dy - m * dx) > dy - 2 * dx := by
  rcases le_or_lt dx dy with hcase | hcase
  · nlinarith [mul_nonneg (by omega : (0:Int) ≤ m - 1) (by omega : (0:Int) ≤ dy - dx)]
  · rw [max_eq_left (le_of_lt hcase)] at hG2
    by_contra hcon
    omega

theorem bres_major_y (dx dy p q : Int) (hdx : 0 ≤ dx) (hdy : 0 ≤ dy)
    (hp : 0 ≤ p) (hpd : p ≤ dx) (hq : 0 ≤ q) (hqd : q ≤ dy) (hpq : p < q)
    (hG1 : 2 * (p * dy - q * dx) ≤ max dx dy)
    (hG2 : -(max dx dy) ≤ 2 * (p * dy - q * dx)) :
    2 * (p * dy - q * dx) < 2 * dy - dx := by
  have hneg : q * dx - p * dy = -(p * dy - q * dx) := by ring
  have h := bres_major_x dy dx q p hdy hdx hq hqd hp hpd hpq
    (by rw [max_comm dy dx]; linarith [hG2, hneg])
    (by rw [max_comm dy dx]; linarith [hG1, hneg])
  linarith [h, hneg]

theorem bres_diag_y (dx dy m : Int) (hdx : 0 ≤ dx) (hdy : 0 ≤ dy)
    (hm : 1 ≤ m) (hmd : m ≤ dx) (hme : m ≤ dy)
    (hG1 : 2 * (m * dy - m * dx) ≤ max dx dy)
    (hG2 : -(max dx dy) ≤ 2 * (m * dy - m * dx)) :
    2 * (m * dy - m * dx) < 2 * dy - dx := by
  have hneg : m * dx - m * dy = -(m * dy - m * dx) := by ring
  have h := bres_diag_x dy dx m hdy hdx hm hme hmd
    (by rw [max_comm dy dx]; linarith [hG2, hneg])
    (by rw [max_comm dy dx]; linarith [hG1, hneg])
  linarith [h, hneg]


set_option maxHeartbeats 1000000

-- The loop invariant of drawLine, proved along the whole run: writing
-- p := sx*(x1-x0cur) and q := sy*(y1-y0cur) for the remaining distances,
-- every reachable state keeps 0 ≤ p ≤ dx, 0 ≤ q ≤ dy and
-- |2*(p*dy - q*dx)| ≤ max dx dy, the error term always equals
-- p*dy - q*dx + dx - dy, the loop plots exactly max p q + 1 further pixels
-- and ends on the endpoint.
theorem drawLineAux_spec (x1 y1 sx sy dx dy : Int)
    (hsx : sx = 1 ∨ sx = -1) (hsy : sy = 1 ∨ sy = -1)
    (hdx : 0 ≤ dx) (hdy : 0 ≤ dy) :
    ∀ (fuel : Nat) (x y : Int),
      0 ≤ sx * (x1 - x) → sx * (x1 - x) ≤ dx →
      0 ≤ sy * (y1 - y) → sy * (y1 - y) ≤ dy →
      2 * (sx * (x1 - x) * dy - sy * (y1 - y) * dx) ≤ max dx dy →
      -(max dx dy) ≤ 2 * (sx * (x1 - x) * dy - sy * (y1 - y) * dx) →
      (max (sx * (x1 - x)) (sy * (y1 - y))).toNat + 1 ≤ fuel →
      (drawLineAux x1 y1 sx sy dx dy fuel x y
          (sx * (x1 - x) * dy - sy * (y1 - y) * dx + dx - dy)).length
        = (max (sx * (x1 - x)) (sy * (y1 - y))).toNat + 1 ∧
      (∀ ab ∈ drawLineAux x1 y1 sx sy dx dy fuel x y
          (sx * (x1 - x) * dy - sy * (y1 - y) * dx + dx - dy),
        0 ≤ sx * (x1 - ab.1) ∧ sx * (x1 - ab.1) ≤ dx ∧
        0 ≤ sy * (y1 - ab.2) ∧ sy * (y1 - ab.2) ≤ dy ∧
        2 * (sx * (x1 - ab.1) * dy - sy * (y1 - ab.2) * dx) ≤ max dx dy ∧
        -(max dx dy) ≤ 2 * (sx * (x1 - ab.1) * dy - sy * (y1 - ab.2) * dx)) ∧
      (drawLineAux x1 y1 sx sy dx dy fuel x y
          (sx * (x1 - x) * dy - sy * (y1 - y) * dx + dx - dy)).getLast?
        = some (x1, y1) := by
  intro fuel
  induction fuel with
  | zero =>
    intro x y _ _ _ _ _ _ hfuel
    exact absurd hfuel (by omega)
  | succ fuel ih =>
    intro x y hp0 hpd hq0 hqd hG1 hG2 hfuel
    have hsx2 : sx * sx = 1 := by rcases hsx with h | h <;> rw [h] <;> norm_num
    have hsy2 : sy * sy = 1 := by rcases hsy with h | h <;> rw [h] <;> norm_num
    have hsxne : sx ≠ 0 := by rcases hsx with h | h <;> rw [h] <;> norm_num
    have hsyne : sy ≠ 0 := by rcases hsy with h | h <;> rw [h] <;> norm_num
    have hMdx : dx ≤ max dx dy := le_max_left _ _
    have hMdy : dy ≤ max dx dy := le_max_right _ _
    have hmp : sx * (x1 - x) ≤ max (sx * (x1 - x)) (sy * (y1 - y)) :=
      le_max_left _ _
    have hmq : sy * (y1 - y) ≤ max (sx * (x1 - x)) (sy * (y1 - y)) :=
      le_max_right _ _
    by_cases hfin : x = x1 ∧ y = y1
    · -- reached the endpoint: the loop plots it once and breaks
      have hpz : sx * (x1 - x) = 0 := by rw [hfin.1]; ring
      have hqz : sy * (y1 - y) = 0 := by rw [hfin.2]; ring
      simp only [drawLineAux, if_pos hfin]
      refine ⟨?_, ?_, ?_⟩
      · rw [hpz, hqz]
        simp
      · intro ab hab
        rw [List.mem_singleton] at hab
        subst hab
        exact ⟨hp0, hpd, hq0, hqd, hG1, hG2⟩
      · rw [hfin.1, hfin.2]
        rfl
    · -- at least one axis still has distance to cover
      have hnf : 1 ≤ sx * (x1 - x) ∨ 1 ≤ sy * (y1 - y) := by
        by_contra hcon
        push_neg at hcon
        have hp00 : sx * (x1 - x) = 0 := by omega
        have hq00 : sy * (y1 - y) = 0 := by omega
        refine hfin ⟨?_, ?_⟩
        · rcases mul_eq_zero.mp hp00 with h | h
          · exact absurd h hsxne
          · omega
        · rcases mul_eq_zero.mp hq00 with h | h
          · exact absurd h hsyne
          · omega
      simp only [drawLineAux, if_neg hfin]
      by_cases hCx :
          2 * (sx * (x1 - x) * dy - sy * (y1 - y) * dx + dx - dy) > -dy
      · -- the x axis steps
        have hCx' : 2 * (sx * (x1 - x) * dy - sy * (y1 - y) * dx)
            > dy - 2 * dx := by linarith
        have hp1 : 1 ≤ sx * (x1 - x) := by
          by_contra hc
          have h0 : sx * (x1 - x) = 0 := by omega
          have hq1 : 1 ≤ sy * (y1 - y) := by rcases hnf with h | h <;> omega
          rw [h0] at hCx'
          exact bres_noovershoot_x dx dy (sy * (y1 - y)) hdx hdy hq1 hCx'
        have I1 : sx * (x1 - (x + sx)) = sx * (x1 - x) - 1 := by
          linear_combination -hsx2
        by_cases hCy :
            2 * (sx * (x1 - x) * dy - sy * (y1 - y) * dx + dx - dy) < dx
        · -- both axes step (diagonal move)
          have hCy' : 2 * (sx * (x1 - x) * dy - sy * (y1 - y) * dx)
              < 2 * dy - dx := by linarith
          have hq1 : 1 ≤ sy * (y1 - y) := by
            by_contra hc
            have h0 : sy * (y1 - y) = 0 := by omega
            rw [h0] at hCy'
            exact bres_noovershoot_y dx dy (sx * (x1 - x)) hdx hdy hp1 hCy'
          have I2 : sy * (y1 - (y + sy)) = sy * (y1 - y) - 1 := by
            linear_combination -hsy2
          have hGA : sx * (x1 - (x + sx)) * dy - sy * (y1 - (y + sy)) * dx
              = sx * (x1 - x) * dy - sy * (y1 - y) * dx + dx - dy := by
            rw [I1, I2]; ring
          have hA1 : 0 ≤ sx * (x1 - (x + sx)) := by rw [I1]; omega
          have hA2 : sx * (x1 - (x + sx)) ≤ dx := by rw [I1]; omega
          have hA3 : 0 ≤ sy * (y1 - (y + sy)) := by rw [I2]; omega
          have hA4 : sy * (y1 - (y + sy)) ≤ dy := by rw [I2]; omega
          have hA5 : 2 * (sx * (x1 - (x + sx)) * dy - sy * (y1 - (y + sy)) * dx)
              ≤ max dx dy := by rw [hGA]; linarith
          have hA6 : -(max dx dy)
              ≤ 2 * (sx * (x1 - (x + sx)) * dy - sy * (y1 - (y + sy)) * dx) := by
            rw [hGA]; linarith
          have hmaxA : max (sx * (x1 - (x + sx))) (sy * (y1 - (y + sy)))
              = max (sx * (x1 - x)) (sy * (y1 - y)) - 1 := by
            rw [I1, I2]
            have a1 := le_max_left (sx * (x1 - x) - 1) (sy * (y1 - y) - 1)
            have a2 := le_max_right (sx * (x1 - x) - 1) (sy * (y1 - y) - 1)
            have a3 := max_choice (sx * (x1 - x) - 1) (sy * (y1 - y) - 1)
            have a6 := max_choice (sx * (x1 - x)) (sy * (y1 - y))
            omega
          have hfA : (max (sx * (x1 - (x + sx))) (sy * (y1 - (y + sy)))).toNat + 1
              ≤ fuel := by
            rw [hmaxA]
            omega
          have ihA := ih (x + sx) (y + sy) hA1 hA2 hA3 hA4 hA5 hA6 hfA
          have hEA : sx * (x1 - x) * dy - sy * (y1 - y) * dx + dx - dy - dy + dx
              = sx * (x1 - (x + sx)) * dy - sy * (y1 - (y + sy)) * dx + dx - dy := by
            rw [hGA]; ring
          simp only [if_pos hCx, if_pos hCy]
          rw [hEA]
          obtain ⟨ihlen, ihmem, ihlast⟩ := ihA
          refine ⟨?_, ?_, ?_⟩
          · rw [List.length_cons, ihlen, hmaxA]
            omega
          · intro ab hab
            rcases List.mem_cons.mp hab with hab | hab
            · subst hab
              exact ⟨hp0, hpd, hq0, hqd, hG1, hG2⟩
            · exact ihmem ab hab
          · cases hTR : drawLineAux x1 y1 sx sy dx dy fuel (x + sx) (y + sy)
                (sx * (x1 - (x + sx)) * dy - sy * (y1 - (y + sy)) * dx + dx - dy) with
            | nil =>
              rw [hTR] at ihlen
              simp only [List.length_nil] at ihlen
              omega
            | cons b t =>
              rw [hTR] at ihlast
              rw [List.getLast?_cons_cons]
              exact ihlast
        · -- only the x axis steps
          have hCyle : dx ≤
              2 * (sx * (x1 - x) * dy - sy * (y1 - y) * dx + dx - dy) :=
            not_lt.mp hCy
          have hCy2 : 2 * dy - dx ≤ 2 * (sx * (x1 - x) * dy - sy * (y1 - y) * dx) := by
            linarith
          have hqp : sy * (y1 - y) < sx * (x1 - x) := by
            by_contra hc
            push_neg at hc
            rcases eq_or_lt_of_le hc with heq | hlt
            · have hme : sx * (x1 - x) ≤ dy := by rw [heq]; exact hqd
              rw [← heq] at hG1 hG2 hCy2
              have hdiag := bres_diag_y dx dy (sx * (x1 - x)) hdx hdy hp1 hpd hme hG1 hG2
              linarith
            · have hmaj := bres_major_y dx dy (sx * (x1 - x)) (sy * (y1 - y))
                hdx hdy hp0 hpd hq0 hqd hlt hG1 hG2
              linarith
          have hGB : sx * (x1 - (x + sx)) * dy - sy * (y1 - y) * dx
              = sx * (x1 - x) * dy - sy * (y1 - y) * dx - dy := by
            rw [I1]; ring
          have hB1 : 0 ≤ sx * (x1 - (x + sx)) := by rw [I1]; omega
          have hB2 : sx * (x1 - (x + sx)) ≤ dx := by rw [I1]; omega
          have hB5 : 2 * (sx * (x1 - (x + sx)) * dy - sy * (y1 - y) * dx)
              ≤ max dx dy := by rw [hGB]; linarith
          have hB6 : -(max dx dy)
              ≤ 2 * (sx * (x1 - (x + sx)) * dy - sy * (y1 - y) * dx) := by
            rw [hGB]; linarith
          have hmaxB : max (sx * (x1 - (x + sx))) (sy * (y1 - y))
              = max (sx * (x1 - x)) (sy * (y1 - y)) - 1 := by
            rw [I1]
            have a1 := le_max_left (sx * (x1 - x) - 1) (sy * (y1 - y))
            have a2 := le_max_right (sx * (x1 - x) - 1) (sy * (y1 - y))
            have a3 := max_choice (sx * (x1 - x) - 1) (sy * (y1 - y))
            have a6 := max_choice (sx * (x1 - x)) (sy * (y1 - y))
            omega
          have hfB : (max (sx * (x1 - (x + sx))) (sy * (y1 - y))).toNat + 1
              ≤ fuel := by
            rw [hmaxB]
            omega
          have ihB := ih (x + sx) y hB1 hB2 hq0 hqd hB5 hB6 hfB
          have hEB : sx * (x1 - x) * dy - sy * (y1 - y) * dx + dx - dy - dy
              = sx * (x1 - (x + sx)) * dy - sy * (y1 - y) * dx + dx - dy := by
            rw [hGB]; ring
          simp only [if_pos hCx, if_neg hCy]
          rw [hEB]
          obtain ⟨ihlen, ihmem, ihlast⟩ := ihB
          refine ⟨?_, ?_, ?_⟩
          · rw [List.length_cons, ihlen, hmaxB]
            omega
          · intro ab hab
            rcases List.mem_cons.mp hab with hab | hab
            · subst hab
              exact ⟨hp0, hpd, hq0, hqd, hG1, hG2⟩
            · exact ihmem ab hab
          · cases hTR : drawLineAux x1 y1 sx sy dx dy fuel (x + sx) y
                (sx * (x1 - (x + sx)) * dy - sy * (y1 - y) * dx + dx - dy) with
            | nil =>
              rw [hTR] at ihlen
              simp only [List.length_nil] at ihlen
              omega
            | cons b t =>
              rw [hTR] at ihlast
              rw [List.getLast?_cons_cons]
              exact ihlast
      · by_cases hCy :
            2 * (sx * (x1 - x) * dy - sy * (y1 - y) * dx + dx - dy) < dx
        · -- only the y axis steps
          have hCy' : 2 * (sx * (x1 - x) * dy - sy * (y1 - y) * dx)
              < 2 * dy - dx := by linarith
          have hCxle : 2 * (sx * (x1 - x) * dy - sy * (y1 - y) * dx + dx - dy)
              ≤ -dy := not_lt.mp hCx
          have hCx2 : 2 * (sx * (x1 - x) * dy - sy * (y1 - y) * dx)
              ≤ dy - 2 * dx := by linarith
          have hq1 : 1 ≤ sy * (y1 - y) := by
            by_contra hc
            have h0 : sy * (y1 - y) = 0 := by omega
            have hp1 : 1 ≤ sx * (x1 - x) := by rcases hnf with h | h <;> omega
            rw [h0] at hCy'
            exact bres_noovershoot_y dx dy (sx * (x1 - x)) hdx hdy hp1 hCy'
          have I2 : sy * (y1 - (y + sy)) = sy * (y1 - y) - 1 := by
            linear_combination -hsy2
          have hpq : sx * (x1 - x) < sy * (y1 - y) := by
            by_contra hc
            push_neg at hc
            rcases eq_or_lt_of_le hc with heq | hlt
            · have hmd : sy * (y1 - y) ≤ dx := by rw [heq]; exact hpd
              rw [← heq] at hG1 hG2 hCx2
              have hdiag := bres_diag_x dx dy (sy * (y1 - y)) hdx hdy hq1 hmd hqd hG1 hG2
              linarith
            · have hmaj := bres_major_x dx dy (sx * (x1 - x)) (sy * (y1 - y))
                hdx hdy hp0 hpd hq0 hqd hlt hG1 hG2
              linarith
          have hGC : sx * (x1 - x) * dy - sy * (y1 - (y + sy)) * dx
              = sx * (x1 - x) * dy - sy * (y1 - y) * dx + dx := by
            rw [I2]; ring
          have hC3 : 0 ≤ sy * (y1 - (y + sy)) := by rw [I2]; omega
          have hC4 : sy * (y1 - (y + sy)) ≤ dy := by rw [I2]; omega
          have hC5 : 2 * (sx * (x1 - x) * dy - sy * (y1 - (y + sy)) * dx)
              ≤ max dx dy := by rw [hGC]; linarith
          have hC6 : -(max dx dy)
              ≤ 2 * (sx * (x1 - x) * dy - sy * (y1 - (y + sy)) * dx) := by
            rw [hGC]; linarith
          have hmaxC : max (sx * (x1 - x)) (sy * (y1 - (y + sy)))
              = max (sx * (x1 - x)) (sy * (y1 - y)) - 1 := by
            rw [I2]
            have a1 := le_max_left (sx * (x1 - x)) (sy * (y1 - y) - 1)
            have a2 := le_max_right (sx * (x1 - x)) (sy * (y1 - y) - 1)
            have a3 := max_choice (sx * (x1 - x)) (sy * (y1 - y) - 1)
            have a6 := max_choice (sx * (x1 - x)) (sy * (y1 - y))
            omega
          have hfC : (max (sx * (x1 - x)) (sy * (y1 - (y + sy)))).toNat + 1
              ≤ fuel := by
            rw [hmaxC]
            omega
          have ihC := ih x (y + sy) hp0 hpd hC3 hC4 hC5 hC6 hfC
          have hEC : sx * (x1 - x) * dy - sy * (y1 - y) * dx + dx - dy + dx
              = sx * (x1 - x) * dy - sy * (y1 - (y + sy)) * dx + dx - dy := by
            rw [hGC]; ring
          simp only [if_neg hCx, if_pos hCy]
          rw [hEC]
          obtain ⟨ihlen, ihmem, ihlast⟩ := ihC
          refine ⟨?_, ?_, ?_⟩
          · rw [List.length_cons, ihlen, hmaxC]
            omega
          · intro ab hab
            rcases List.mem_cons.mp hab with hab | hab
            · subst hab
              exact ⟨hp0, hpd, hq0, hqd, hG1, hG2⟩
            · exact ihmem ab hab
          · cases hTR : drawLineAux x1 y1 sx sy dx dy fuel x (y + sy)
                (sx * (x1 - x) * dy - sy * (y1 - (y + sy)) * dx + dx - dy) with
            | nil =>
              rw [hTR] at ihlen
              simp only [List.length_nil] at ihlen
              omega
            | cons b t =>
              rw [hTR] at ihlast
              rw [List.getLast?_cons_cons]
              exact ihlast
        · -- impossible: at a non-final state at least one axis steps
          exfalso
          have hCxn : ¬ (2 * (sx * (x1 - x) * dy - sy * (y1 - y) * dx)
              > dy - 2 * dx) := fun hc => hCx (by linarith)
          have hCyn : ¬ (2 * (sx * (x1 - x) * dy - sy * (y1 - y) * dx)
              < 2 * dy - dx) := fun hc => hCy (by linarith)
          exact bres_progress dx dy (sx * (x1 - x)) (sy * (y1 - y))
            hdx hdy hp0 hpd hq0 hqd hnf hCxn hCyn


theorem abs_nonneg' (x : Int) : 0 ≤ abs x := by
  unfold abs
  split_ifs <;> omega

theorem abs_le_iff (x c : Int) : abs x ≤ c ↔ x ≤ c ∧ -c ≤ x := by
  unfold abs
  split_ifs <;> omega

theorem abs_neg' (x : Int) : abs (-x) = abs x := by
  unfold abs
  split_ifs <;> omega

-- Translate the normalized per-axis invariant back to the axis-aligned
-- bounding box of the endpoints.
theorem bres_box_bridge (z0 z1 a s d : Int)
    (hse : s = if z0 > z1 then -1 else 1) (hde : d = abs (z1 - z0))
    (h1 : 0 ≤ s * (z1 - a)) (h2 : s * (z1 - a) ≤ d) :
    min z0 z1 ≤ a ∧ a ≤ max z0 z1 := by
  subst hse hde
  unfold abs at h2
  have hminc := min_choice z0 z1
  have hmaxc := max_choice z0 z1
  have hminl := min_le_left z0 z1
  have hminr := min_le_right z0 z1
  have hmaxl := le_max_left z0 z1
  have hmaxr := le_max_right z0 z1
  split_ifs at h1 h2 <;> omega

-- Translate the normalized closeness invariant into the cross-product
-- distance from the ideal line through the endpoints.
theorem bres_cross_bridge (x0 y0 x1 y1 a b sx sy dx dy M : Int)
    (hsxe : sx = if x0 > x1 then -1 else 1)
    (hsye : sy = if y0 > y1 then -1 else 1)
    (hdxe : dx = abs (x1 - x0)) (hdye : dy = abs (y1 - y0))
    (h1 : 2 * (sx * (x1 - a) * dy - sy * (y1 - b) * dx) ≤ M)
    (h2 : -M ≤ 2 * (sx * (x1 - a) * dy - sy * (y1 - b) * dx)) :
    2 * abs ((b - y0) * (x1 - x0) - (a - x0) * (y1 - y0)) ≤ M := by
  subst hsxe hsye hdxe hdye
  have habs2 : ∀ z : Int, 2 * z ≤ M → -M ≤ 2 * z → 2 * abs z ≤ M := by
    intro z hz1 hz2
    unfold abs
    split_ifs <;> omega
  by_cases hx : x0 > x1 <;> by_cases hy : y0 > y1
  · have hax : abs (x1 - x0) = x0 - x1 := by
      unfold abs; rw [if_pos (show x1 - x0 < 0 by omega)]; ring
    have hay : abs (y1 - y0) = y0 - y1 := by
      unfold abs; rw [if_pos (show y1 - y0 < 0 by omega)]; ring
    have hkey : (b - y0) * (x1 - x0) - (a - x0) * (y1 - y0)
        = (if x0 > x1 then (-1:Int) else 1) * (x1 - a) * abs (y1 - y0)
          - (if y0 > y1 then (-1:Int) else 1) * (y1 - b) * abs (x1 - x0) := by
      rw [if_pos hx, if_pos hy, hax, hay]; ring
    exact habs2 _ (by linarith) (by linarith)
  · have hax : abs (x1 - x0) = x0 - x1 := by
      unfold abs; rw [if_pos (show x1 - x0 < 0 by omega)]; ring
    have hay : abs (y1 - y0) = y1 - y0 := by
      unfold abs; rw [if_neg (show ¬ (y1 - y0 < 0) by omega)]
    have hkey : (b - y0) * (x1 - x0) - (a - x0) * (y1 - y0)
        = -((if x0 > x1 then (-1:Int) else 1) * (x1 - a) * abs (y1 - y0)
          - (if y0 > y1 then (-1:Int) else 1) * (y1 - b) * abs (x1 - x0)) := by
      rw [if_pos hx, if_neg hy, hax, hay]; ring
    exact habs2 _ (by linarith) (by linarith)
  · have hax : abs (x1 - x0) = x1 - x0 := by
      unfold abs; rw [if_neg (show ¬ (x1 - x0 < 0) by omega)]
    have hay : abs (y1 - y0) = y0 - y1 := by
      unfold abs; rw [if_pos (show y1 - y0 < 0 by omega)]; ring
    have hkey : (b - y0) * (x1 - x0) - (a - x0) * (y1 - y0)
        = -((if x0 > x1 then (-1:Int) else 1) * (x1 - a) * abs (y1 - y0)
          - (if y0 > y1 then (-1:Int) else 1) * (y1 - b) * abs (x1 - x0)) := by
      rw [if_neg hx, if_pos hy, hax, hay]; ring
    exact habs2 _ (by linarith) (by linarith)
  · have hax : abs (x1 - x0) = x1 - x0 := by
      unfold abs; rw [if_neg (show ¬ (x1 - x0 < 0) by omega)]
    have hay : abs (y1 - y0) = y1 - y0 := by
      unfold abs; rw [if_neg (show ¬ (y1 - y0 < 0) by omega)]
    have hkey : (b - y0) * (x1 - x0) - (a - x0) * (y1 - y0)
        = (if x0 > x1 then (-1:Int) else 1) * (x1 - a) * abs (y1 - y0)
          - (if y0 > y1 then (-1:Int) else 1) * (y1 - b) * abs (x1 - x0) := by
      rw [if_neg hx, if_neg hy, hax, hay]; ring
    exact habs2 _ (by linarith) (by linarith)

-- Full specification of the pixels plotted by drawLine, in the original
-- coordinates: exactly max(|dx|,|dy|)+1 writes, the loop reaches its break
-- on the endpoint, and every plotted pixel stays in the bounding box of the
-- endpoints within half a pixel of the ideal line.
theorem drawLinePixels_spec (x0 y0 x1 y1 : Int) :
    (drawLinePixels x0 y0 x1 y1).length
      = (max (abs (x1 - x0)) (abs (y1 - y0))).toNat + 1 ∧
    (drawLinePixels x0 y0 x1 y1).getLast? = some (x1, y1) ∧
    (∀ ab ∈ drawLinePixels x0 y0 x1 y1,
      min x0 x1 ≤ ab.1 ∧ ab.1 ≤ max x0 x1 ∧
      min y0 y1 ≤ ab.2 ∧ ab.2 ≤ max y0 y1 ∧
      2 * abs ((ab.2 - y0) * (x1 - x0) - (ab.1 - x0) * (y1 - y0))
        ≤ max (abs (x1 - x0)) (abs (y1 - y0))) := by
  have hdx : 0 ≤ abs (x1 - x0) := abs_nonneg' _
  have hdy : 0 ≤ abs (y1 - y0) := abs_nonneg' _
  have hsx12 : (if x0 > x1 then (-1:Int) else 1) = 1 ∨
      (if x0 > x1 then (-1:Int) else 1) = -1 := by
    split_ifs <;> simp
  have hsy12 : (if y0 > y1 then (-1:Int) else 1) = 1 ∨
      (if y0 > y1 then (-1:Int) else 1) = -1 := by
    split_ifs <;> simp
  have hpx0 : (if x0 > x1 then (-1:Int) else 1) * (x1 - x0) = abs (x1 - x0) := by
    unfold abs
    split_ifs <;> omega
  have hqy0 : (if y0 > y1 then (-1:Int) else 1) * (y1 - y0) = abs (y1 - y0) := by
    unfold abs
    split_ifs <;> omega
  have hMl := le_max_left (abs (x1 - x0)) (abs (y1 - y0))
  have hMr := le_max_right (abs (x1 - x0)) (abs (y1 - y0))
  have hMc := max_choice (abs (x1 - x0)) (abs (y1 - y0))
  have H := drawLineAux_spec x1 y1
      (if x0 > x1 then (-1:Int) else 1) (if y0 > y1 then (-1:Int) else 1)
      (abs (x1 - x0)) (abs (y1 - y0)) hsx12 hsy12 hdx hdy
      ((abs (x1 - x0) + abs (y1 - y0) + 1).toNat) x0 y0
      (by rw [hpx0]; exact hdx) (by rw [hpx0]) (by rw [hqy0]; exact hdy)
      (by rw [hqy0])
      (by rw [hpx0, hqy0]
          have h0 : abs (x1 - x0) * abs (y1 - y0)
              - abs (y1 - y0) * abs (x1 - x0) = 0 := by ring
          rw [h0]
          omega)
      (by rw [hpx0, hqy0]
          have h0 : abs (x1 - x0) * abs (y1 - y0)
              - abs (y1 - y0) * abs (x1 - x0) = 0 := by ring
          rw [h0]
          omega)
      (by rw [hpx0, hqy0]; omega)
  rw [hpx0, hqy0] at H
  have hE : abs (x1 - x0) * abs (y1 - y0) - abs (y1 - y0) * abs (x1 - x0)
      + abs (x1 - x0) - abs (y1 - y0) = abs (x1 - x0) - abs (y1 - y0) := by
    ring
  rw [hE] at H
  simp only [drawLinePixels]
  refine ⟨H.1, H.2.2, ?_⟩
  intro ab hab
  obtain ⟨m1, m2, m3, m4, m5, m6⟩ := H.2.1 ab hab
  obtain ⟨bx1, bx2⟩ := bres_box_bridge x0 x1 ab.1 _ _ rfl rfl m1 m2
  obtain ⟨by1, by2⟩ := bres_box_bridge y0 y1 ab.2 _ _ rfl rfl m3 m4
  exact ⟨bx1, bx2, by1, by2,
    bres_cross_bridge x0 y0 x1 y1 ab.1 ab.2 _ _ _ _ _ rfl rfl rfl rfl m5 m6⟩


/-! ## Claim C8 -/

/-- C8: for all integer endpoints the drawLine loop terminates — with its
fuel `|dx|+|dy|+1` it reaches the `break`, the last plotted pixel being the
endpoint `(x1,y1)` — performing exactly `max(|dx|,|dy|)+1` pixel writes
(the major axis advances one pixel in every iteration), using only integer
error-term arithmetic (the embedding is `Int` arithmetic throughout), and
every plotted pixel lies on or adjacent to the ideal segment: it stays in
the endpoints' bounding box and its scaled cross-product distance from the
ideal line satisfies `2·|cross| ≤ max(|dx|,|dy|)`, i.e. the minor-axis
deviation is at most half a pixel. -/
theorem drawLine_bresenham_spec (x0 y0 x1 y1 : Int) :
    (drawLinePixels x0 y0 x1 y1).length
      = (max (abs (x1 - x0)) (abs (y1 - y0))).toNat + 1 ∧
    (drawLinePixels x0 y0 x1 y1).getLast? = some (x1, y1) ∧
    (∀ ab ∈ drawLinePixels x0 y0 x1 y1,
      min x0 x1 ≤ ab.1 ∧ ab.1 ≤ max x0 x1 ∧
      min y0 y1 ≤ ab.2 ∧ ab.2 ≤ max y0 y1 ∧
      2 * abs ((ab.2 - y0) * (x1 - x0) - (ab.1 - x0) * (y1 - y0))
        ≤ max (abs (x1 - x0)) (abs (y1 - y0))) :=
  drawLinePixels_spec x0 y0 x1 y1

/-- C8 witness: on the segment (0,0)-(3,1) the loop writes
4 = max(3,1)+1 pixels, breaks on (3,1), and the plotted pixel (2,1) is
within half a pixel of the ideal line. -/
theorem drawLine_bresenham_spec_witness :
    (drawLinePixels 0 0 3 1).length = 4 ∧
    (drawLinePixels 0 0 3 1).getLast? = some (3, 1) ∧
    (2, 1) ∈ drawLinePixels 0 0 3 1 ∧
    2 * abs (((2, 1) : Int × Int).2 * (3 - 0) - ((2, 1) : Int × Int).1 * (1 - 0))
      ≤ max (abs (3 - 0)) (abs (1 - 0)) := by
  have h := drawLine_bresenham_spec 0 0 3 1
  refine ⟨?_, h.2.1, by decide, ?_⟩
  · rw [h.1]
    decide
  · have hm := (h.2.2 (2, 1) (by decide)).2.2.2.2
    simpa using hm

/-! ## Claim C10 -/

/-- C10: every pixel plotted by drawLine lies within the axis-aligned
bounding box of its two endpoints; each noise endpoint is drawn from
`[0,200) × [0,80)`, so every noise-stroke pixel write falls inside the
200×80 canvas; and at in-bounds coordinates the `image.RGBA` bounds guard
accepts the write and stores the color — no noise write is silently
dropped or out of range. -/
theorem drawLine_writes_in_bounds (x0 y0 x1 y1 : Int) (r : Nat → Nat)
    (img : RGBAImage) :
    (∀ ab ∈ drawLinePixels x0 y0 x1 y1,
      min x0 x1 ≤ ab.1 ∧ ab.1 ≤ max x0 x1 ∧
      min y0 y1 ≤ ab.2 ∧ ab.2 ≤ max y0 y1) ∧
    (∀ l ∈ noiseLines 200 80 r,
      ∀ ab ∈ drawLinePixels l.1 l.2.1 l.2.2.1 l.2.2.2,
        0 ≤ ab.1 ∧ ab.1 < 200 ∧ 0 ≤ ab.2 ∧ ab.2 < 80) ∧
    (∀ x y : Int, 0 ≤ x → x < (img.width : Int) → 0 ≤ y →
      y < (img.height : Int) →
      ∀ c : RGBA, (img.set x y c).pix (x, y) = c) := by
  refine ⟨?_, ?_, ?_⟩
  · intro ab hab
    have h := (drawLinePixels_spec x0 y0 x1 y1).2.2 ab hab
    exact ⟨h.1, h.2.1, h.2.2.1, h.2.2.2.1⟩
  · intro l hl ab hab
    have hb := noiseLines_mem_bounds r l hl
    have h := (drawLinePixels_spec l.1 l.2.1 l.2.2.1 l.2.2.2).2.2 ab hab
    have hmc1 := min_choice l.1 l.2.2.1
    have hxc1 := max_choice l.1 l.2.2.1
    have hmc2 := min_choice l.2.1 l.2.2.2
    have hxc2 := max_choice l.2.1 l.2.2.2
    obtain ⟨b1, b2, b3, b4, b5, b6, b7, b8⟩ := hb
    obtain ⟨c1, c2, c3, c4, _⟩ := h
    omega
  · intro x y hx0 hxw hy0 hyh c
    unfold RGBAImage.set
    rw [if_pos ⟨hx0, hxw, hy0, hyh⟩]
    simp

/-- C10 witness: a concrete noise stroke of the zero oracle is
(0,0)-(0,0), the pixel (3,2) of the segment (5,3)-(0,0) stays in its
bounding box, and an in-bounds write on the white canvas stores black. -/
theorem drawLine_writes_in_bounds_witness :
    ((3, 2) ∈ drawLinePixels 5 3 0 0 ∧
      min (5 : Int) 0 ≤ ((3, 2) : Int × Int).1 ∧
      ((3, 2) : Int × Int).1 ≤ max (5 : Int) 0) ∧
    (0, 0, 0, 0) ∈ noiseLines 200 80 zeroStream ∧
    ((newWhiteImage 200 80).set 0 0 blackRGBA).pix (0, 0) = blackRGBA := by
  have h := drawLine_writes_in_bounds 5 3 0 0 zeroStream (newWhiteImage 200 80)
  refine ⟨⟨by decide, ?_, ?_⟩, by decide, ?_⟩
  · exact (h.1 (3, 2) (by decide)).1
  · exact (h.1 (3, 2) (by decide)).2.1
  · exact h.2.2 0 0 (by decide) (by decide) (by decide) (by decide) blackRGBA

end Captcha
